import Mathlib

/-!
Verification development for the streaming chat / tool-calling engine of the
guy-ollama repository.  The embedding below follows the TypeScript source:
`src/services/ollamaService.ts` (the `OllamaService.chat` stream decoder and
its HTTP error handling) and the application component holding
`safeJsonParse` and `executeAgentLoop`.

Machine-level conventions of the embedding:
* JSON values (`JSON.parse` results) are the inductive `Json`; numbers are
  modelled as integers (every number appearing in the protocol records
  treated here is integral).
* JavaScript truthiness, last-assignment-wins object fields, optional
  chaining (`json.message?.tool_calls`) and string coercion are modelled
  explicitly (`truthy`, `insertField`, `getF2`, `jsToString`).
* The network byte stream is modelled at text level: a run of the reader is
  a list of already-decoded text chunks followed by either end-of-stream or
  an abort of the in-flight read.
-/

namespace GuyOllama

/-- JSON values as produced by `JSON.parse`.  Object fields keep first-insertion
order; duplicate keys are collapsed last-assignment-wins at parse time, as in
JavaScript. -/
inductive Json where
  | null : Json
  | bool (b : Bool) : Json
  | num (n : Int) : Json
  | str (s : String) : Json
  | arr (elems : List Json) : Json
  | obj (fields : List (String × Json)) : Json

/-- The character U+007B (left curly bracket). -/
def lbrace : Char := Char.ofNat 123

/-- The character U+007D (right curly bracket). -/
def rbrace : Char := Char.ofNat 125

/-- Field lookup in a JavaScript object: `none` plays the role of `undefined`. -/
def fieldLookup : List (String × Json) → String → Option Json
  | [], _ => none
  | (k, v) :: rest, key => if k = key then some v else fieldLookup rest key

/-- Property access `j[key]` on an arbitrary value: `undefined` (`none`) unless
`j` is an object carrying the field.  Mirrors that accessing a property of a
number, string, array or boolean yields `undefined` for the fields used here. -/
def getF : Json → String → Option Json
  | Json.obj fs, key => fieldLookup fs key
  | _, _ => none

/-- Optional-chained access `j[k1]?.[k2]` as used in `json.message?.tool_calls`. -/
def getF2 (j : Json) (k1 k2 : String) : Option Json :=
  match getF j k1 with
  | some m => getF m k2
  | none => none

/-- JavaScript truthiness of a JSON value. -/
def truthy : Json → Bool
  | Json.null => false
  | Json.bool b => b
  | Json.num n => n != 0
  | Json.str s => s != ""
  | Json.arr _ => true
  | Json.obj _ => true

/-- Truthiness of a possibly-undefined value (`undefined` is falsy). -/
def truthyO : Option Json → Bool
  | none => false
  | some v => truthy v

mutual

/-- JavaScript `String(v)` coercion, used where the decoder appends
`json.message.content` to a string buffer. -/
def jsToString : Json → String
  | Json.null => "null"
  | Json.bool true => "true"
  | Json.bool false => "false"
  | Json.num n => toString n
  | Json.str s => s
  | Json.arr xs => jsArrToString xs
  | Json.obj _ => "[object Object]"

def jsArrToString : List Json → String
  | [] => ""
  | [Json.null] => ""
  | [x] => jsToString x
  | Json.null :: rest => "," ++ jsArrToString rest
  | x :: rest => jsToString x ++ "," ++ jsArrToString rest

end

/-- Escaping of one character inside a `JSON.stringify` string literal. -/
def escapeJsonChar (c : Char) : String :=
  if c = '"' then "\\\""
  else if c = '\\' then "\\\\"
  else if c = Char.ofNat 10 then "\\n"
  else if c = Char.ofNat 13 then "\\r"
  else if c = Char.ofNat 9 then "\\t"
  else if c = Char.ofNat 8 then "\\b"
  else if c = Char.ofNat 12 then "\\f"
  else String.mk [c]

/-- Escaping of a whole string for `JSON.stringify`. -/
def escapeJsonString (s : String) : String :=
  String.join (s.data.map escapeJsonChar)

mutual

/-- `JSON.stringify`, used by the tool dispatcher to build a fallback search
query out of non-string arguments. -/
def stringifyJson : Json → String
  | Json.null => "null"
  | Json.bool true => "true"
  | Json.bool false => "false"
  | Json.num n => toString n
  | Json.str s => "\"" ++ escapeJsonString s ++ "\""
  | Json.arr xs => "[" ++ stringifyArr xs ++ "]"
  | Json.obj fs => String.mk [lbrace] ++ stringifyFields fs ++ String.mk [rbrace]

def stringifyArr : List Json → String
  | [] => ""
  | [x] => stringifyJson x
  | x :: rest => stringifyJson x ++ "," ++ stringifyArr rest

def stringifyFields : List (String × Json) → String
  | [] => ""
  | [(k, v)] => "\"" ++ escapeJsonString k ++ "\":" ++ stringifyJson v
  | (k, v) :: rest =>
      "\"" ++ escapeJsonString k ++ "\":" ++ stringifyJson v ++ "," ++ stringifyFields rest

end

/-- JSON whitespace accepted between tokens by `JSON.parse`. -/
def jsonWs (c : Char) : Bool :=
  c == ' ' || c == Char.ofNat 9 || c == Char.ofNat 10 || c == Char.ofNat 13

/-- Skip JSON whitespace. -/
def skipWs (cs : List Char) : List Char := cs.dropWhile jsonWs

/-- Value of a hexadecimal digit. -/
def hexVal (c : Char) : Option Nat :=
  if '0' ≤ c ∧ c ≤ '9' then some (c.toNat - 48)
  else if 'a' ≤ c ∧ c ≤ 'f' then some (c.toNat - 87)
  else if 'A' ≤ c ∧ c ≤ 'F' then some (c.toNat - 55)
  else none

/-- Body of a JSON string literal (after the opening quote): returns the decoded
characters and the remainder after the closing quote.  Raw control characters
are rejected, escapes are decoded, as in `JSON.parse`. -/
def parseStrBody : Nat → List Char → Option (List Char × List Char)
  | 0, _ => none
  | _, [] => none
  | fuel + 1, c :: rest =>
    if c == '"' then some ([], rest)
    else if c == '\\' then
      match rest with
      | [] => none
      | e :: rest2 =>
        if e == '"' ∨ e == '\\' ∨ e == '/' then
          (parseStrBody fuel rest2).map (fun p => (e :: p.1, p.2))
        else if e == 'n' then
          (parseStrBody fuel rest2).map (fun p => (Char.ofNat 10 :: p.1, p.2))
        else if e == 't' then
          (parseStrBody fuel rest2).map (fun p => (Char.ofNat 9 :: p.1, p.2))
        else if e == 'r' then
          (parseStrBody fuel rest2).map (fun p => (Char.ofNat 13 :: p.1, p.2))
        else if e == 'b' then
          (parseStrBody fuel rest2).map (fun p => (Char.ofNat 8 :: p.1, p.2))
        else if e == 'f' then
          (parseStrBody fuel rest2).map (fun p => (Char.ofNat 12 :: p.1, p.2))
        else if e == 'u' then
          match rest2 with
          | h1 :: h2 :: h3 :: h4 :: rest3 =>
            match hexVal h1, hexVal h2, hexVal h3, hexVal h4 with
            | some a, some b, some c3, some d =>
              (parseStrBody fuel rest3).map
                (fun p => (Char.ofNat (((a * 16 + b) * 16 + c3) * 16 + d) :: p.1, p.2))
            | _, _, _, _ => none
          | _ => none
        else none
    else if c.toNat < 32 then none
    else (parseStrBody fuel rest).map (fun p => (c :: p.1, p.2))

/-- Decimal digits folded into a natural number. -/
def digitsVal : List Char → Nat → Nat
  | [], acc => acc
  | c :: rest, acc => digitsVal rest (acc * 10 + (c.toNat - 48))

/-- A run of decimal digits (JSON integer body, leading zeros rejected). -/
def parseDigits (cs : List Char) : Option (Nat × List Char) :=
  let ds := cs.takeWhile Char.isDigit
  let rest := cs.dropWhile Char.isDigit
  if ds = [] then none
  else if ds.head? = some '0' ∧ ds.length > 1 then none
  else some (digitsVal ds 0, rest)

/-- A JSON number (integral form). -/
def parseNumber : List Char → Option (Json × List Char)
  | '-' :: rest => (parseDigits rest).map (fun p => (Json.num (-(p.1 : Int)), p.2))
  | cs => (parseDigits cs).map (fun p => (Json.num (p.1 : Int), p.2))

/-- Insert one parsed object member, last-assignment-wins, keeping the key at
its first-insertion position as JavaScript objects do. -/
def insertField : List (String × Json) → String → Json → List (String × Json)
  | [], k, v => [(k, v)]
  | (k0, v0) :: rest, k, v =>
    if k0 = k then (k0, v) :: rest else (k0, v0) :: insertField rest k v

mutual

/-- Recursive-descent JSON value grammar, fuel-indexed. -/
def parseVal : Nat → List Char → Option (Json × List Char)
  | 0, _ => none
  | fuel + 1, cs =>
    match skipWs cs with
    | 'n' :: 'u' :: 'l' :: 'l' :: rest => some (Json.null, rest)
    | 't' :: 'r' :: 'u' :: 'e' :: rest => some (Json.bool true, rest)
    | 'f' :: 'a' :: 'l' :: 's' :: 'e' :: rest => some (Json.bool false, rest)
    | '"' :: rest =>
      match parseStrBody (rest.length + 1) rest with
      | some (chars, rest2) => some (Json.str (String.mk chars), rest2)
      | none => none
    | '[' :: rest => parseArrItems fuel (skipWs rest)
    | c :: rest =>
      if c == lbrace then parseObjFields fuel (skipWs rest)
      else if c == '-' || c.isDigit then parseNumber (c :: rest)
      else none
    | [] => none

def parseArrItems : Nat → List Char → Option (Json × List Char)
  | 0, _ => none
  | fuel + 1, cs =>
    match cs with
    | ']' :: rest => some (Json.arr [], rest)
    | _ =>
      match parseVal fuel cs with
      | some (v, rest) => parseArrTail fuel [v] rest
      | none => none

def parseArrTail : Nat → List Json → List Char → Option (Json × List Char)
  | 0, _, _ => none
  | fuel + 1, acc, cs =>
    match skipWs cs with
    | ',' :: rest =>
      match parseVal fuel rest with
      | some (v, rest2) => parseArrTail fuel (acc ++ [v]) rest2
      | none => none
    | ']' :: rest => some (Json.arr acc, rest)
    | _ => none

def parseMember : Nat → List Char → Option (String × Json × List Char)
  | 0, _ => none
  | fuel + 1, cs =>
    match skipWs cs with
    | '"' :: rest =>
      match parseStrBody (rest.length + 1) rest with
      | some (kchars, rest2) =>
        match skipWs rest2 with
        | ':' :: rest3 =>
          match parseVal fuel rest3 with
          | some (v, rest4) => some (String.mk kchars, v, rest4)
          | none => none
        | _ => none
      | none => none
    | _ => none

def parseObjFields : Nat → List Char → Option (Json × List Char)
  | 0, _ => none
  | fuel + 1, cs =>
    match cs with
    | [] => none
    | c :: rest =>
      if c == rbrace then some (Json.obj [], rest)
      else
        match parseMember fuel cs with
        | some (k, v, rest2) => parseObjTail fuel (insertField [] k v) rest2
        | none => none

def parseObjTail : Nat → List (String × Json) → List Char → Option (Json × List Char)
  | 0, _, _ => none
  | fuel + 1, fs, cs =>
    match skipWs cs with
    | ',' :: rest =>
      match parseMember fuel rest with
      | some (k, v, rest2) => parseObjTail fuel (insertField fs k v) rest2
      | none => none
    | c :: rest =>
      if c == rbrace then some (Json.obj fs, rest) else none
    | [] => none

end

/-- `JSON.parse`: a full-input JSON document, surrounding whitespace allowed. -/
def parseJson (s : String) : Option Json :=
  match parseVal (s.data.length + 16) s.data with
  | some (v, rest) => if skipWs rest = [] then some v else none
  | none => none

/-- Whitespace removed by `String.prototype.trim` (ASCII part). -/
def isTrimWs (c : Char) : Bool :=
  c == ' ' || c == Char.ofNat 9 || c == Char.ofNat 10 || c == Char.ofNat 13
    || c == Char.ofNat 11 || c == Char.ofNat 12

/-- `trim` at character-list level. -/
def trimChars (cs : List Char) : List Char :=
  ((cs.dropWhile isTrimWs).reverse.dropWhile isTrimWs).reverse

/-- JavaScript `s.trim()`. -/
def jsTrim (s : String) : String := String.mk (trimChars s.data)

/-- `chunk.split` at newline, at character-list level; `split` keeps empty
pieces, and splitting the empty string yields one empty piece. -/
def splitNl : List Char → List (List Char)
  | [] => [[]]
  | c :: rest =>
    match splitNl rest with
    | [] => [[]]
    | l :: ls => if c == Char.ofNat 10 then [] :: l :: ls else (c :: l) :: ls

/-- The text lines of one network chunk. -/
def chunkLines (c : String) : List String := (splitNl c.data).map String.mk

/-- The lines the decoder iterates over: each chunk is split on its own, with
no carry-over of a partial trailing line into the next chunk (exactly as the
source loop does). -/
def linesOfChunks (chunks : List String) : List String :=
  (chunks.map chunkLines).flatten

/-- Strip a literal pattern from the head of a character list. -/
def stripLead : List Char → List Char → Option (List Char)
  | [], s => some s
  | _, [] => none
  | p :: ps, c :: cs => if p == c then stripLead ps cs else none

/-- Global, leftmost, non-overlapping literal replacement
(`String.prototype.replace` with a global literal pattern). -/
def replaceSubAux : Nat → List Char → List Char → List Char → List Char
  | 0, _, _, s => s
  | fuel + 1, pat, rep, s =>
    match stripLead pat s with
    | some rest => rep ++ replaceSubAux fuel pat rep rest
    | none =>
      match s with
      | [] => []
      | c :: cs => c :: replaceSubAux fuel pat rep cs

/-- JavaScript `s.replace(pattern-g, rep)` for a literal pattern. -/
def replaceSub (s pat rep : String) : String :=
  String.mk (replaceSubAux (s.data.length + 1) pat.data rep.data s.data)

/-- Word characters of the key-quoting regex class. -/
def isWordChar (c : Char) : Bool := c.isAlpha || c.isDigit || c == '_'

/-- One attempted match of the bare-key regex at the head of the input:
an opening brace or comma, optional whitespace, a run of word characters,
optional whitespace, and a colon; the replacement re-quotes the key and drops
the surrounding whitespace. -/
def keyMatch (cs : List Char) : Option (List Char × List Char) :=
  match cs with
  | [] => none
  | c :: rest =>
    if c == lbrace || c == ',' then
      let afterWs := rest.dropWhile isTrimWs
      let word := afterWs.takeWhile isWordChar
      let afterWord := afterWs.dropWhile isWordChar
      if word = [] then none
      else
        match afterWord.dropWhile isTrimWs with
        | c2 :: rest2 =>
          if c2 == ':' then some (c :: '"' :: (word ++ ('"' :: [':'])), rest2) else none
        | [] => none
    else none

/-- Left-to-right scan applying `keyMatch` at each position, continuing after
each replacement (global regex replace). -/
def quoteKeysAux : Nat → List Char → List Char
  | 0, s => s
  | fuel + 1, s =>
    match keyMatch s with
    | some (rep, rest) => rep ++ quoteKeysAux fuel rest
    | none =>
      match s with
      | [] => []
      | c :: cs => c :: quoteKeysAux fuel cs

/-- The bare-object-key repair applied at stage two of `safeJsonParse`. -/
def quoteKeys (s : String) : String :=
  String.mk (quoteKeysAux (s.data.length + 1) s.data)

/-- What processing one decoded line does to the decoder state, in source
order: a truthy `status` field is forwarded to the status callback; a truthy
`message?.tool_calls` is spread onto the collected list (a spread of a truthy
non-iterable value throws, which the per-line `catch` swallows, skipping the
rest of the line; a string spreads into its characters); a truthy
`message?.content` is appended to the buffer and forwarded as the delta; a
truthy `done` ends the pass.  Each effect depends only on the line itself. -/
structure LineEffect where
  statuses : List Json
  entries : List Json
  delta : Option String
  done : Bool

/-- The content/done tail of one line's processing. -/
def contentDone (j : Json) (sts : List Json) (entries : List Json) : LineEffect :=
  let d : Option String :=
    match getF2 j ("message") ("content") with
    | some v => if truthy v then some (jsToString v) else none
    | none => none
  let dn : Bool :=
    match getF j ("done") with
    | some v => truthy v
    | none => false
  ⟨sts, entries, d, dn⟩

/-- The effect of one raw line on the decoder: blank lines are skipped, a line
`JSON.parse` rejects is skipped by the per-line `catch`. -/
def lineEffect (line : String) : LineEffect :=
  if trimChars line.data = [] then ⟨[], [], none, false⟩
  else
    match parseJson line with
    | none => ⟨[], [], none, false⟩
    | some j =>
      let sts : List Json :=
        match getF j ("status") with
        | some v => if truthy v then [v] else []
        | none => []
      match getF2 j ("message") ("tool_calls") with
      | some v =>
        if truthy v then
          match v with
          | Json.arr l => contentDone j sts l
          | Json.str s => contentDone j sts (s.data.map (fun c => Json.str (String.mk [c])))
          | _ => ⟨sts, [], none, false⟩
        else contentDone j sts []
      | none => contentDone j sts []

/-- Decoder state of one pass: the accumulated content buffer, the collected
tool-call entries, and the callback traces (content deltas and statuses, in
emission order). -/
structure DecState where
  full : String
  tcs : List Json
  deltas : List String
  statuses : List Json

/-- Decoder state at the start of a pass. -/
def initState : DecState := ⟨"", [], [], []⟩

/-- Apply one line's effect to the decoder state. -/
def applyEffect (st : DecState) (e : LineEffect) : DecState :=
  { full := st.full ++ (match e.delta with | some d => d | none => ""),
    tcs := st.tcs ++ e.entries,
    deltas := st.deltas ++ (match e.delta with | some d => [d] | none => []),
    statuses := st.statuses ++ e.statuses }

/-- Processing of one line inside the decoder loop; the boolean reports a
truthy `done`, which returns from `chat` early. -/
def stepLine (st : DecState) (line : String) : DecState × Bool :=
  (applyEffect st (lineEffect line), (lineEffect line).done)

/-- The decoder loop over the lines of the stream, stopping at the first line
whose record is terminal. -/
def runLines : DecState → List String → DecState × Bool
  | st, [] => (st, false)
  | st, line :: rest =>
    let e := lineEffect line
    let st2 := applyEffect st e
    if e.done then (st2, true) else runLines st2 rest

/-- The value `chat` resolves with: the accumulated content, and the collected
tool calls or `undefined` when none were collected. -/
structure ChatOk where
  content : String
  tool_calls : Option (List Json)

/-- A thrown JavaScript error, identified by its `name` and `message`. -/
structure JsError where
  name : String
  message : String

/-- The error a `fetch`/reader interaction throws when the abort signal fires. -/
def abortError : JsError := ⟨"AbortError", "The user aborted a request."⟩

/-- Resolution of one `chat` call: a value or a thrown error. -/
inductive ChatRes where
  | ok (r : ChatOk)
  | err (e : JsError)

/-- Observable behaviour of one `chat` call: its resolution plus the full
callback traces (`onChunk` arguments in order, `onStatus` arguments in order). -/
structure ChatOutput where
  result : ChatRes
  deltas : List String
  statuses : List Json

/-- How the reader run ends when no terminal record cut it short: the body
simply ends, or the abort signal interrupts the pending read. -/
inductive StreamFin where
  | eof
  | aborted

/-- One streaming response body: the decoded text chunks the reader yields, and
how the read ends afterwards. -/
structure BodyStream where
  chunks : List String
  fin : StreamFin

/-- The transport-level outcome of the `fetch` in `chat`: a non-ok status (with
the `error` field of the parsed error body, when the body parsed and carried
one), an ok response without body, or an ok streaming body. -/
inductive HttpResp where
  | notOk (status : Nat) (errField : Option String)
  | okNoBody
  | okBody (body : BodyStream)

/-- The thrown message for a non-ok response: `err.error || "Error " + status`
(JavaScript `||`, so a missing or empty `error` field falls back). -/
def httpErrMsg (status : Nat) (errField : Option String) : String :=
  let m := match errField with | some e => e | none => ""
  if m = "" then "Error " ++ toString status else m

/-- Package the decoder state into the resolution value (`tool_calls` is only
present when at least one entry was collected). -/
def finishChat (st : DecState) : ChatOk :=
  { content := st.full,
    tool_calls := if st.tcs.length > 0 then some st.tcs else none }

/-- Decoding of a streaming body: lines come from per-chunk newline splits; a
terminal record returns early, end-of-stream returns what was accumulated, and
an abort of the pending read throws after the callbacks already fired. -/
def chatFromBody (b : BodyStream) : ChatOutput :=
  match runLines initState (linesOfChunks b.chunks) with
  | (st, true) => ⟨ChatRes.ok (finishChat st), st.deltas, st.statuses⟩
  | (st, false) =>
    match b.fin with
    | StreamFin.eof => ⟨ChatRes.ok (finishChat st), st.deltas, st.statuses⟩
    | StreamFin.aborted => ⟨ChatRes.err abortError, st.deltas, st.statuses⟩

/-- `OllamaService.chat` from the response onward: non-ok status throws the
server-derived message, a missing body throws, otherwise the stream is decoded. -/
def chat : HttpResp → ChatOutput
  | HttpResp.notOk status errField =>
    ⟨ChatRes.err ⟨"Error", httpErrMsg status errField⟩, [], []⟩
  | HttpResp.okNoBody => ⟨ChatRes.err ⟨"Error", "No body"⟩, [], []⟩
  | HttpResp.okBody b => chatFromBody b

/-- The literal fence marker removed first by `safeJsonParse`. -/
def fenceJson : String := "```json"

/-- The literal fence marker removed second by `safeJsonParse`. -/
def fence : String := "```"

/-- The `cleanStr` of `safeJsonParse`: remove every occurrence of the two
fence markers, then trim. -/
def cleanOf (s : String) : String :=
  jsTrim (replaceSub (replaceSub s fenceJson "") fence "")

/-- `safeJsonParse`: a non-null object (arrays included) is returned unchanged;
a non-string non-object yields the empty object; a string is first stripped of
code fences and trimmed and parsed strictly, on failure the original string
gets its bare object keys quoted and is re-parsed, and on failure of both the
result is the empty object.  The argument is the runtime value of
`tc.function.arguments` (`none` plays `undefined`). -/
def safeJsonParse (input : Option Json) : Json :=
  match input with
  | some (Json.obj fs) => Json.obj fs
  | some (Json.arr xs) => Json.arr xs
  | some (Json.str s) =>
    match parseJson (cleanOf s) with
    | some v => v
    | none =>
      match parseJson (quoteKeys s) with
      | some v => v
      | none => Json.obj []
  | _ => Json.obj []

/-- A message appended to (or updated in) the session or the working
conversation during a run, projected to the fields the loop manipulates. -/
structure SessMsg where
  role : String
  content : String
  tool_calls : Option (List Json)
  tool_call_id : Option Json
  name : Option Json

/-- The external web-search capability (it may throw). -/
structure ToolEnv where
  webSearch : String → Except JsError String

/-- The thrown message of the TypeError raised by reading a property of
`undefined` or `null` (as in `tc.function.arguments` when `tc.function` is
absent). -/
def undefinedAccessMsg : String := "Cannot read properties of undefined"

/-- Reading `tc.function.name` outside any try block (tool-message
construction): throws when `tc.function` is `undefined` or `null`. -/
def accessFunctionName (tc : Json) : Except JsError (Option Json) :=
  match getF tc ("function") with
  | none => Except.error ⟨"TypeError", undefinedAccessMsg⟩
  | some Json.null => Except.error ⟨"TypeError", undefinedAccessMsg⟩
  | some fv => Except.ok (getF fv ("name"))

/-- Fallback search query when `args.query` is falsy:
`typeof args === "string" ? args : JSON.stringify(args)`. -/
def fallbackQuery : Json → String
  | Json.str s => s
  | j => stringifyJson j

/-- `args.query || fallback`, coerced to the string the capability embeds. -/
def searchQueryOf (args : Json) : String :=
  match getF args ("query") with
  | some v => if truthy v then jsToString v else fallbackQuery args
  | none => fallbackQuery args

/-- `args.seconds || 1` for the sleep capability. -/
def secondsOf (args : Json) : Json :=
  match getF args ("seconds") with
  | some v => if truthy v then v else Json.num 1
  | none => Json.num 1

/-- The inner try block of one tool execution: parse the arguments leniently,
dispatch on `tc.function.name`, convert a capability throw into a
`Tool Error:` result string.  A `tc` without a function object throws at the
very first property read, which this same try catches.  The second component
records the capability invocations performed (tool name with the parsed
arguments) — a tool is invoked no matter how the argument parse went. -/
def runTool (env : ToolEnv) (tc : Json) : String × List (String × Json) :=
  match getF tc ("function") with
  | none => ("Tool Error: " ++ undefinedAccessMsg, [])
  | some Json.null => ("Tool Error: " ++ undefinedAccessMsg, [])
  | some fv =>
    let args := safeJsonParse (getF fv ("arguments"))
    match getF fv ("name") with
    | some (Json.str n) =>
      if n = "search_web" then
        match env.webSearch (searchQueryOf args) with
        | Except.ok s => (s, [("search_web", args)])
        | Except.error e => ("Tool Error: " ++ e.message, [("search_web", args)])
      else if n = "sleep_agent" then
        ("Ready after " ++ jsToString (secondsOf args) ++ "s wait.", [("sleep_agent", args)])
      else ("", [])
    | _ => ("", [])

/-- Result of the sequential tool-execution loop of one pass: the tool
messages appended (in execution order), the invocation trace, the next value
of the poll counter, whether a stop poll broke the loop, and an error escaping
the loop (thrown by the tool-message construction). -/
structure ToolExecRes where
  msgs : List SessMsg
  invocations : List (String × Json)
  nextPoll : Nat
  stopped : Bool
  thrown : Option JsError

/-- The `for (const tc of response.tool_calls)` loop: before each tool and
again before appending its result the stop latch is polled (`stops` gives the
latch value at successive poll events); the tool message is built reading
`tc.id` and `tc.function.name`, the latter throwing out of the loop for an
entry without a function object. -/
def execTools (env : ToolEnv) (stops : Nat → Bool) : Nat → List Json → ToolExecRes
  | k, [] => ⟨[], [], k, false, none⟩
  | k, tc :: rest =>
    if stops k then ⟨[], [], k + 1, true, none⟩
    else
      let ri := runTool env tc
      if stops (k + 1) then ⟨[], ri.2, k + 2, true, none⟩
      else
        match accessFunctionName tc with
        | Except.error e => ⟨[], ri.2, k + 2, false, some e⟩
        | Except.ok nm =>
          let msg : SessMsg := ⟨"tool", ri.1, none, getF tc ("id"), nm⟩
          let r := execTools env stops (k + 2) rest
          ⟨msg :: r.msgs, ri.2 ++ r.invocations, r.nextPoll, r.stopped, r.thrown⟩

/-- Terminal states of the agent loop controller. -/
inductive Outcome where
  | done
  | cancelled
  | failed
  | loopExhausted

/-- Observable result of one `executeAgentLoop` run: its terminal state, how
many `chat` calls it issued, the messages it appended to the session (assistant
placeholders with their final contents, and tool messages, in order), every
content-callback delta of the run, the capability invocations, and the final
working conversation. -/
structure LoopResult where
  outcome : Outcome
  chatCalls : Nat
  msgs : List SessMsg
  allDeltas : List String
  invocations : List (String × Json)
  conv : List SessMsg

/-- The `while (loopCount < MAX_LOOPS)` body, fuel-indexed by the remaining
passes.  `passes` gives the transport behaviour answering the pass's `chat`
call, `stops` the stop-latch value at successive poll events.  Exits map to
the spec's terminal states: stop poll observed → `cancelled`; a thrown
`AbortError` → `cancelled` with the placeholder untouched; any other throw →
`failed` with the placeholder content rewritten to `Error: <message>`; a
resolution without tool calls → `done`; fuel exhausted → `loopExhausted`. -/
def agentLoopAux (passes : Nat → HttpResp) (env : ToolEnv) (stops : Nat → Bool) :
    Nat → Nat → Nat → List SessMsg → LoopResult
  | 0, _, _, conv => ⟨Outcome.loopExhausted, 0, [], [], [], conv⟩
  | fuel + 1, p, k, conv =>
    if stops k then ⟨Outcome.cancelled, 0, [], [], [], conv⟩
    else
      let out := chat (passes p)
      let streamed := String.join out.deltas
      match out.result with
      | ChatRes.err e =>
        if e.name = "AbortError" then
          ⟨Outcome.cancelled, 1, [⟨"assistant", streamed, none, none, none⟩],
            out.deltas, [], conv⟩
        else
          ⟨Outcome.failed, 1, [⟨"assistant", "Error: " ++ e.message, none, none, none⟩],
            out.deltas, [], conv⟩
      | ChatRes.ok r =>
        match r.tool_calls with
        | none =>
          ⟨Outcome.done, 1, [⟨"assistant", streamed, none, none, none⟩],
            out.deltas, [], conv⟩
        | some tcs =>
          if stops (k + 1) then
            ⟨Outcome.cancelled, 1, [⟨"assistant", streamed, none, none, none⟩],
              out.deltas, [], conv⟩
          else
            let ph : SessMsg := ⟨"assistant", streamed, some tcs, none, none⟩
            let tr := execTools env stops (k + 2) tcs
            match tr.thrown with
            | some e =>
              if e.name = "AbortError" then
                ⟨Outcome.cancelled, 1, ph :: tr.msgs, out.deltas, tr.invocations, conv⟩
              else
                ⟨Outcome.failed, 1,
                  { ph with content := "Error: " ++ e.message } :: tr.msgs,
                  out.deltas, tr.invocations, conv⟩
            | none =>
              if stops tr.nextPoll then
                ⟨Outcome.cancelled, 1, ph :: tr.msgs, out.deltas, tr.invocations, conv⟩
              else
                let conv2 := conv ++ (⟨"assistant", r.content, some tcs, none, none⟩ :: tr.msgs)
                let rest := agentLoopAux passes env stops fuel (p + 1) (tr.nextPoll + 1) conv2
                ⟨rest.outcome, rest.chatCalls + 1, ph :: (tr.msgs ++ rest.msgs),
                  out.deltas ++ rest.allDeltas, tr.invocations ++ rest.invocations, rest.conv⟩

/-- The fixed pass cap of the agent loop. -/
def MAX_LOOPS : Nat := 5

/-- `executeAgentLoop`: a run starts at pass 0, poll event 0, and is bounded by
`MAX_LOOPS` passes by construction (the Lean function is total, so every run
terminates). -/
def executeAgentLoop (passes : Nat → HttpResp) (env : ToolEnv) (stops : Nat → Bool) :
    LoopResult :=
  agentLoopAux passes env stops MAX_LOOPS 0 0 []

/-- The tool-call entries one line contributes to the collected list. -/
def lineEntries (l : String) : List Json := (lineEffect l).entries

/-- The lines one pass actually consumes: everything up to and including the
first line carrying a truthy `done` (the early return), or the whole stream
when no record is terminal. -/
def consumeLines : List String → List String
  | [] => []
  | l :: rest => if (lineEffect l).done then [l] else l :: consumeLines rest

/-- A tool-call entry whose `function` property is a proper (non-null) value,
so that reading `tc.function.name` and `tc.function.arguments` does not throw. -/
def hasFunctionObj (tc : Json) : Bool :=
  match getF tc ("function") with
  | none => false
  | some Json.null => false
  | some _ => true

/-! Concrete instances used by the witnesses and the counterexamples. -/

/-- One chunk carrying the two records of the Hello scenario. -/
def helloChunk : String :=
  "\x7b\"message\":\x7b\"content\":\"Hel\"\x7d,\"done\":false\x7d\n\x7b\"message\":\x7b\"content\":\"lo\"\x7d,\"done\":true\x7d"

/-- The Hello scenario body. -/
def helloBody : BodyStream := ⟨[helloChunk], StreamFin.eof⟩

/-- A record line carrying one well-formed `search_web` tool call and `done`. -/
def toolLine : String :=
  "\x7b\"message\":\x7b\"tool_calls\":[\x7b\"id\":\"1\",\"function\":\x7b\"name\":\"search_web\",\"arguments\":\"\x7b\x7d\"\x7d\x7d]\x7d,\"done\":true\x7d"

/-- The decoded tool-call entry of `toolLine`. -/
def tcW : Json :=
  Json.obj [("id", Json.str "1"),
    ("function", Json.obj [("name", Json.str "search_web"),
      ("arguments", Json.str (String.mk [lbrace, rbrace]))])]

/-- A record line carrying a second tool call (id 2), non-terminal. -/
def toolLineFst : String :=
  "\x7b\"message\":\x7b\"tool_calls\":[\x7b\"id\":\"2\",\"function\":\x7b\"name\":\"sleep_agent\",\"arguments\":\"\x7b\x7d\"\x7d\x7d]\x7d,\"done\":false\x7d"

/-- The decoded tool-call entry of `toolLineFst`. -/
def tcW2 : Json :=
  Json.obj [("id", Json.str "2"),
    ("function", Json.obj [("name", Json.str "sleep_agent"),
      ("arguments", Json.str (String.mk [lbrace, rbrace]))])]

/-- A body delivering two tool-call records (ids 2 then 1) in one pass. -/
def twoToolBody : BodyStream := ⟨[toolLineFst ++ "\n" ++ toolLine], StreamFin.eof⟩

/-- An environment whose search capability returns a fixed summary. -/
def envW : ToolEnv := ⟨fun _ => Except.ok "Ollama is a local model runner."⟩

/-- A run during which the stop latch is never set. -/
def stopsNever : Nat → Bool := fun _ => false

/-- A model that answers every pass with one well-formed tool call. -/
def passesTool : Nat → HttpResp := fun _ => HttpResp.okBody ⟨[toolLine], StreamFin.eof⟩

/-- A transport on which the abort fires before any record arrives. -/
def passesAbort : Nat → HttpResp := fun _ => HttpResp.okBody ⟨[], StreamFin.aborted⟩

/-- A server answering HTTP 500 with body carrying the error field. -/
def passes500 : Nat → HttpResp := fun _ => HttpResp.notOk 500 (some "model not found")

/-- A bare terminal record. -/
def doneLine : String := "\x7b\"done\":true\x7d"

/-- A line `JSON.parse` rejects. -/
def badLine : String := "\x7boops"

/-- A well-formed non-terminal content record. -/
def okLineA : String := "\x7b\"message\":\x7b\"content\":\"Hi\"\x7d,\"done\":false\x7d"

/-- A second well-formed non-terminal content record. -/
def okLineB : String := "\x7b\"message\":\x7b\"content\":\"!\"\x7d,\"done\":false\x7d"

/-- The unquoted-key repair example input. -/
def exQuery : String := "\x7bquery: \"weather\"\x7d"

/-- Unparsable garbage arguments. -/
def exGarbage : String := "weather report please"

/-- A fenced, otherwise valid JSON argument string. -/
def exFenced : String := "```json\n\x7b\"query\": \"weather\"\x7d\n```"

/-- A tool-call entry carrying the unquoted-key arguments. -/
def tcQueryW : Json :=
  Json.obj [("id", Json.str "9"),
    ("function", Json.obj [("name", Json.str "search_web"),
      ("arguments", Json.str exQuery)])]

/-- First half of a record line split mid-line across two network chunks. -/
def splitChunkA : String := "\x7b\"message\":\x7b\"content\":\"Hel"

/-- Second half of the split record line. -/
def splitChunkB : String := "lo\"\x7d,\"done\":true\x7d"

/-! ### Helper lemmas about the decoder -/

/-- Joining a snoc-ed list of strings appends the last piece. -/
theorem join_snoc (xs : List String) (s : String) :
    String.join (xs ++ [s]) = String.join xs ++ s := by
  simp [String.join, List.foldl_append]

/-- A line effect with no statuses, no entries and no delta leaves the decoder
state unchanged. -/
theorem applyEffect_neutral (st : DecState) (b : Bool) :
    applyEffect st ⟨[], [], none, b⟩ = st := by
  cases st with
  | mk full tcs deltas statuses => simp [applyEffect]

/-- A line `JSON.parse` rejects has the neutral effect. -/
theorem lineEffect_of_parse_none (l : String) (h : parseJson l = none) :
    lineEffect l = ⟨[], [], none, false⟩ := by
  unfold lineEffect
  rw [h]
  split <;> rfl

/-- `applyEffect` keeps the concatenation of the emitted deltas equal to the
content buffer. -/
theorem applyEffect_join (st : DecState) (e : LineEffect)
    (h : String.join st.deltas = st.full) :
    String.join (applyEffect st e).deltas = (applyEffect st e).full := by
  cases e with
  | mk sts ents d dn =>
    cases d with
    | none => simpa [applyEffect] using h
    | some s => simp [applyEffect, join_snoc, h]

/-- Along the whole decoder loop the concatenation of emitted deltas equals the
content buffer. -/
theorem runLines_join (ls : List String) (st : DecState)
    (h : String.join st.deltas = st.full) :
    String.join (runLines st ls).1.deltas = (runLines st ls).1.full := by
  induction ls generalizing st with
  | nil => simpa [runLines] using h
  | cons l rest ih =>
    simp only [runLines]
    by_cases hd : (lineEffect l).done
    · simpa [hd] using applyEffect_join st (lineEffect l) h
    · simpa [hd] using ih (applyEffect st (lineEffect l)) (applyEffect_join st (lineEffect l) h)

/-- The collected tool-call list after the loop is the in-order concatenation
of the entries of the consumed lines. -/
theorem runLines_tcs (ls : List String) (st : DecState) :
    (runLines st ls).1.tcs = st.tcs ++ ((consumeLines ls).map lineEntries).flatten := by
  induction ls generalizing st with
  | nil => simp [runLines, consumeLines]
  | cons l rest ih =>
    simp only [runLines, consumeLines]
    by_cases hd : (lineEffect l).done
    · simp [hd, applyEffect, lineEntries]
    · simpa [hd, applyEffect, lineEntries] using ih (applyEffect st (lineEffect l))

/-- The collected list of a whole pass, from the initial state. -/
theorem runLines_tcs_init (ls : List String) :
    (runLines initState ls).1.tcs = ((consumeLines ls).map lineEntries).flatten := by
  simpa [initState] using runLines_tcs ls initState

/-- If no line of the stream is terminal, the loop reports no early return. -/
theorem runLines_no_done (ls : List String) (st : DecState)
    (h : ∀ l ∈ ls, (lineEffect l).done = false) :
    (runLines st ls).2 = false := by
  induction ls generalizing st with
  | nil => rfl
  | cons l rest ih =>
    simp only [runLines]
    have hl : (lineEffect l).done = false := h l (by simp)
    simp only [hl]
    exact ih _ (fun x hx => h x (by simp [hx]))

/-- When the first part of the stream triggers no early return, the loop
processes an appended tail from the reached state. -/
theorem runLines_append (ls1 ls2 : List String) (st : DecState)
    (h : (runLines st ls1).2 = false) :
    runLines st (ls1 ++ ls2) = runLines (runLines st ls1).1 ls2 := by
  induction ls1 generalizing st with
  | nil => rfl
  | cons l rest ih =>
    simp only [runLines, List.cons_append] at h ⊢
    by_cases hd : (lineEffect l).done
    · simp [hd] at h
    · simp only [hd, if_false, Bool.false_eq_true] at h ⊢
      exact ih _ h

/-- Splitting a newline-free character list yields that one piece. -/
theorem splitNl_no_nl (cs : List Char) (h : Char.ofNat 10 ∉ cs) :
    splitNl cs = [cs] := by
  induction cs with
  | nil => rfl
  | cons c rest ih =>
    have hc : ¬ c == Char.ofNat 10 := by
      simp only [beq_iff_eq]
      intro hcc
      exact h (by simp [hcc])
    have hr := ih (fun hx => h (by simp [hx]))
    simp [splitNl, hr, hc]

/-- `linesOfChunks` distributes over chunk-list concatenation. -/
theorem linesOfChunks_append (c1 c2 : List String) :
    linesOfChunks (c1 ++ c2) = linesOfChunks c1 ++ linesOfChunks c2 := by
  simp [linesOfChunks]

/-- A pass whose line loop reached a terminal record resolves with the reached
state, whatever the stream-end behaviour would have been. -/
theorem chatFromBody_done (b : BodyStream) (st : DecState)
    (h : runLines initState (linesOfChunks b.chunks) = (st, true)) :
    chatFromBody b = ⟨ChatRes.ok (finishChat st), st.deltas, st.statuses⟩ := by
  unfold chatFromBody
  rw [h]

/-- A pass with no terminal record and a normally ending body resolves with the
accumulated state. -/
theorem chatFromBody_eof (st : DecState) (chunks : List String)
    (h : runLines initState (linesOfChunks chunks) = (st, false)) :
    chatFromBody ⟨chunks, StreamFin.eof⟩
      = ⟨ChatRes.ok (finishChat st), st.deltas, st.statuses⟩ := by
  unfold chatFromBody
  rw [h]

/-- A pass with no terminal record whose pending read is aborted throws the
abort error, the already-fired callbacks staying fired. -/
theorem chatFromBody_aborted (st : DecState) (chunks : List String)
    (h : runLines initState (linesOfChunks chunks) = (st, false)) :
    chatFromBody ⟨chunks, StreamFin.aborted⟩
      = ⟨ChatRes.err abortError, st.deltas, st.statuses⟩ := by
  unfold chatFromBody
  rw [h]

/-- Whenever a pass resolves with a value, that value and the callback traces
are the ones of the accumulated decoder state. -/
theorem chatFromBody_ok (b : BodyStream) (r : ChatOk)
    (h : (chatFromBody b).result = ChatRes.ok r) :
    r = finishChat (runLines initState (linesOfChunks b.chunks)).1
    ∧ (chatFromBody b).deltas = (runLines initState (linesOfChunks b.chunks)).1.deltas := by
  rcases b with ⟨chunks, fin⟩
  rcases hrl : runLines initState (linesOfChunks chunks) with ⟨st, d⟩
  cases d with
  | true =>
    rw [chatFromBody_done ⟨chunks, fin⟩ st hrl] at h ⊢
    have hr : ChatRes.ok (finishChat st) = ChatRes.ok r := h
    cases hr
    exact ⟨rfl, rfl⟩
  | false =>
    cases fin with
    | eof =>
      rw [chatFromBody_eof st chunks hrl] at h ⊢
      have hr : ChatRes.ok (finishChat st) = ChatRes.ok r := h
      cases hr
      exact ⟨rfl, rfl⟩
    | aborted =>
      rw [chatFromBody_aborted st chunks hrl] at h
      exact absurd (show ChatRes.err abortError = ChatRes.ok r from h) (by simp)

/-! ### Claim theorems -/

/-- Claim C2: for every record stream one `chat` call consumes, the
concatenation, in order, of the strings passed to the content callback equals
the final content string `chat` returns; and each callback invocation carries
only the new delta of its own record — what a line emits is independent of the
state accumulated before it, so the cumulative buffer is never forwarded. -/
theorem chat_deltas_concat_content :
    (∀ b : BodyStream, ∀ r : ChatOk, (chatFromBody b).result = ChatRes.ok r →
        String.join (chatFromBody b).deltas = r.content)
    ∧ ∀ st l, (stepLine st l).1.deltas = st.deltas ++ (stepLine initState l).1.deltas := by
  constructor
  · intro b r h
    obtain ⟨hr, hd⟩ := chatFromBody_ok b r h
    rw [hd, hr]
    exact runLines_join (linesOfChunks b.chunks) initState rfl
  · intro st l
    simp [stepLine, applyEffect, initState]

/-- Witness for C2 at the Hello scenario: two records stream "Hel" then "lo",
and the concatenated deltas equal the returned content "Hello". -/
theorem chat_deltas_concat_content_witness :
    (chatFromBody helloBody).result = ChatRes.ok ⟨"Hello", none⟩
    ∧ String.join (chatFromBody helloBody).deltas = "Hello" :=
  ⟨rfl, chat_deltas_concat_content.1 helloBody ⟨"Hello", none⟩ rfl⟩

/-- Claim C3: the tool-call list one pass returns is exactly the in-order
concatenation of the entries of the consumed records — length preserved, order
preserved, nothing deduplicated — and it is absent (`undefined`), not empty,
when no entry was collected. -/
theorem chat_toolCalls_order (b : BodyStream) (r : ChatOk)
    (h : (chatFromBody b).result = ChatRes.ok r) :
    r.tool_calls =
      (if (((consumeLines (linesOfChunks b.chunks)).map lineEntries).flatten).length > 0
       then some (((consumeLines (linesOfChunks b.chunks)).map lineEntries).flatten)
       else none) := by
  obtain ⟨hr, -⟩ := chatFromBody_ok b r h
  rw [hr]
  simp only [finishChat]
  rw [runLines_tcs_init (linesOfChunks b.chunks)]

set_option maxRecDepth 20000 in
/-- Witness for C3: a pass delivering two tool-call records returns the two
entries in arrival order. -/
theorem chat_toolCalls_order_witness :
    (chatFromBody twoToolBody).result = ChatRes.ok ⟨"", some [tcW2, tcW]⟩
    ∧ (if (((consumeLines (linesOfChunks twoToolBody.chunks)).map lineEntries).flatten).length > 0
       then some (((consumeLines (linesOfChunks twoToolBody.chunks)).map lineEntries).flatten)
       else none) = some [tcW2, tcW] :=
  ⟨rfl, (chat_toolCalls_order twoToolBody ⟨"", some [tcW2, tcW]⟩ rfl).symm⟩

/-- Claim C8: a line `JSON.parse` rejects is skipped silently — removing it
from the stream changes nothing about the decoder state (content, tool calls,
callback traces) or the continuation of the pass, both at the line-loop level
and for a whole `chat` call when the malformed text forms its own line. -/
theorem malformed_line_skipped (st : DecState) (xs ys : List String) (l : String)
    (hp : parseJson l = none) (hn : Char.ofNat 10 ∉ l.data) :
    runLines st (xs ++ l :: ys) = runLines st (xs ++ ys)
    ∧ ∀ pre post : List String, ∀ fin : StreamFin,
        chatFromBody ⟨pre ++ l :: post, fin⟩ = chatFromBody ⟨pre ++ post, fin⟩ := by
  have hskip : ∀ st0 : DecState, ∀ as bs : List String,
      runLines st0 (as ++ l :: bs) = runLines st0 (as ++ bs) := by
    intro st0 as bs
    induction as generalizing st0 with
    | nil =>
      have he := lineEffect_of_parse_none l hp
      simp only [List.nil_append, runLines, he]
      rw [applyEffect_neutral]
      rfl
    | cons x rest ih =>
      simp only [List.cons_append, runLines]
      by_cases hd : (lineEffect x).done
      · simp [hd]
      · simp only [hd, if_false, Bool.false_eq_true]
        exact ih _
  refine ⟨hskip st xs ys, ?_⟩
  intro pre post fin
  have hl : linesOfChunks (pre ++ l :: post)
      = linesOfChunks pre ++ l :: linesOfChunks post := by
    have : chunkLines l = [l] := by
      simp [chunkLines, splitNl_no_nl l.data hn]
    simp [linesOfChunks, this]
  have hl2 : linesOfChunks (pre ++ post)
      = linesOfChunks pre ++ linesOfChunks post := by
    simp [linesOfChunks]
  unfold chatFromBody
  rw [hl, hl2, hskip initState (linesOfChunks pre) (linesOfChunks post)]

/-- Witness for C8: dropping the malformed middle line of a three-line stream
leaves the run of the decoder unchanged. -/
theorem malformed_line_skipped_witness :
    runLines initState ([okLineA] ++ badLine :: [okLineB])
      = runLines initState ([okLineA] ++ [okLineB])
    ∧ chatFromBody ⟨[okLineA] ++ badLine :: [okLineB], StreamFin.eof⟩
      = chatFromBody ⟨[okLineA] ++ [okLineB], StreamFin.eof⟩ :=
  ⟨(malformed_line_skipped initState [okLineA] [okLineB] badLine rfl (by decide)).1,
    (malformed_line_skipped initState [okLineA] [okLineB] badLine rfl (by decide)).2
      [okLineA] [okLineB] StreamFin.eof⟩

/-- Claim C9: when the body ends before any terminal record was decoded, `chat`
returns normally with the content and tool calls accumulated so far — exactly
the output it would produce had a terminal record followed — and the
`tool_calls` field is absent when nothing was collected. -/
theorem stream_end_without_done (chunks : List String)
    (h : ∀ l ∈ linesOfChunks chunks, (lineEffect l).done = false) :
    (chatFromBody ⟨chunks, StreamFin.eof⟩).result
      = ChatRes.ok (finishChat (runLines initState (linesOfChunks chunks)).1)
    ∧ chatFromBody ⟨chunks, StreamFin.eof⟩
      = chatFromBody ⟨chunks ++ [doneLine], StreamFin.eof⟩
    ∧ ((runLines initState (linesOfChunks chunks)).1.tcs = [] →
        (finishChat (runLines initState (linesOfChunks chunks)).1).tool_calls = none) := by
  have hnd := runLines_no_done (linesOfChunks chunks) initState h
  have hrl : runLines initState (linesOfChunks chunks)
      = ((runLines initState (linesOfChunks chunks)).1, false) := by
    rw [← hnd]
  have hlines : linesOfChunks (chunks ++ [doneLine])
      = linesOfChunks chunks ++ [doneLine] := by
    rw [linesOfChunks_append]
    rfl
  have hdone : runLines initState (linesOfChunks (chunks ++ [doneLine]))
      = ((runLines initState (linesOfChunks chunks)).1, true) := by
    rw [hlines, runLines_append _ _ _ hnd]
    show (applyEffect _ (lineEffect doneLine), (lineEffect doneLine).done) = _
    have hde : lineEffect doneLine = ⟨[], [], none, true⟩ := rfl
    rw [hde, applyEffect_neutral]
  have heof := chatFromBody_eof (runLines initState (linesOfChunks chunks)).1 chunks hrl
  have hsecond := chatFromBody_done ⟨chunks ++ [doneLine], StreamFin.eof⟩
    (runLines initState (linesOfChunks chunks)).1 hdone
  refine ⟨?_, ?_, ?_⟩
  · rw [heof]
  · rw [heof, hsecond]
  · intro htcs
    simp [finishChat, htcs]

/-- Witness for C9: a stream of two non-terminal content records ends at
end-of-body with the accumulated content returned and no tool-call field. -/
theorem stream_end_without_done_witness :
    (chatFromBody ⟨[okLineA, okLineB], StreamFin.eof⟩).result
      = ChatRes.ok (finishChat (runLines initState (linesOfChunks [okLineA, okLineB])).1)
    ∧ chatFromBody ⟨[okLineA, okLineB], StreamFin.eof⟩
      = chatFromBody ⟨[okLineA, okLineB] ++ [doneLine], StreamFin.eof⟩
    ∧ (chatFromBody ⟨[okLineA, okLineB], StreamFin.eof⟩).result
      = ChatRes.ok ⟨"Hi!", none⟩ := by
  have h := stream_end_without_done [okLineA, okLineB] (by
    intro l hl
    simp only [linesOfChunks, chunkLines] at hl
    fin_cases hl <;> rfl)
  exact ⟨h.1, h.2.1, rfl⟩

/-- A tool call with a proper function object is safe to read the name of. -/
theorem accessFunctionName_ok (tc : Json) (h : hasFunctionObj tc = true) :
    ∃ nm, accessFunctionName tc = Except.ok nm := by
  unfold hasFunctionObj at h
  unfold accessFunctionName
  rcases hf : getF tc ("function") with - | fv
  · rw [hf] at h
    simp at h
  · rw [hf] at h
    cases fv <;> simp_all

/-- Executing a list of well-formed tool calls never throws out of the loop. -/
theorem execTools_no_throw (env : ToolEnv) (stops : Nat → Bool) (tcs : List Json)
    (h : ∀ tc ∈ tcs, hasFunctionObj tc = true) :
    ∀ k, (execTools env stops k tcs).thrown = none := by
  induction tcs with
  | nil => intro k; rfl
  | cons tc rest ih =>
    intro k
    obtain ⟨nm, hnm⟩ := accessFunctionName_ok tc (h tc (by simp))
    simp only [execTools]
    by_cases hs : stops k
    · simp [hs]
    · simp only [hs, if_false, Bool.false_eq_true]
      by_cases hs2 : stops (k + 1)
      · simp [hs2]
      · simp only [hs2, if_false, Bool.false_eq_true, hnm]
        exact ih (fun x hx => h x (by simp [hx])) (k + 2)

/-- When the stop latch stays unset and every pass resolves with well-formed
tool calls, the loop spends its entire fuel, one `chat` call per unit. -/
theorem agentLoopAux_all_tools (passes : Nat → HttpResp) (env : ToolEnv)
    (stops : Nat → Bool) (hstop : ∀ k, stops k = false)
    (htc : ∀ p, ∃ c tcs, (chat (passes p)).result = ChatRes.ok ⟨c, some tcs⟩
        ∧ ∀ tc ∈ tcs, hasFunctionObj tc = true) :
    ∀ fuel p k conv, (agentLoopAux passes env stops fuel p k conv).chatCalls = fuel
      ∧ (agentLoopAux passes env stops fuel p k conv).outcome = Outcome.loopExhausted := by
  intro fuel
  induction fuel with
  | zero => intro p k conv; exact ⟨rfl, rfl⟩
  | succ fuel ih =>
    intro p k conv
    obtain ⟨c, tcs, he, hwf⟩ := htc p
    have hnt := execTools_no_throw env stops tcs hwf (k + 2)
    have hrest := ih (p + 1) ((execTools env stops (k + 2) tcs).nextPoll + 1)
      (conv ++ (⟨"assistant", c, some tcs, none, none⟩ :: (execTools env stops (k + 2) tcs).msgs))
    simp only [agentLoopAux, hstop, he, hnt, if_false, Bool.false_eq_true]
    exact ⟨by rw [hrest.1], by rw [hrest.2]⟩

/-- Claim C1: with the stop latch never set, a model that answers every pass
with (well-formed) tool calls drives `executeAgentLoop` through exactly
`MAX_LOOPS = 5` chat calls and into the `LoopExhausted` terminal state; a 6th
chat call is impossible and the loop cannot run longer (the embedding is a
total function whose recursion is bounded by the cap). -/
theorem agent_loop_exhausts_at_cap (passes : Nat → HttpResp) (env : ToolEnv)
    (stops : Nat → Bool) (hstop : ∀ k, stops k = false)
    (htc : ∀ p, ∃ c tcs, (chat (passes p)).result = ChatRes.ok ⟨c, some tcs⟩
        ∧ ∀ tc ∈ tcs, hasFunctionObj tc = true) :
    (executeAgentLoop passes env stops).chatCalls = 5
    ∧ (executeAgentLoop passes env stops).outcome = Outcome.loopExhausted :=
  agentLoopAux_all_tools passes env stops hstop htc MAX_LOOPS 0 0 []

/-- Witness for C1: a concrete model answering each pass with one `search_web`
tool call makes the run exhaust the cap after exactly 5 passes. -/
theorem agent_loop_exhausts_at_cap_witness :
    (executeAgentLoop passesTool envW stopsNever).chatCalls = 5
    ∧ (executeAgentLoop passesTool envW stopsNever).outcome = Outcome.loopExhausted :=
  agent_loop_exhausts_at_cap passesTool envW stopsNever (fun _ => rfl)
    (fun _ => ⟨"", [tcW], rfl, by
      intro tc htc
      rw [List.mem_singleton] at htc
      rw [htc]
      rfl⟩)

/-- Claim C6: when the abort fires before any record of the first pass arrives,
the content callback never runs, the run ends `Cancelled` — never `Failed` —
and no message content is ever rewritten into an error text (the placeholder
keeps its empty content). -/
theorem abort_before_records_cancelled (passes : Nat → HttpResp) (env : ToolEnv)
    (stops : Nat → Bool) (h : passes 0 = HttpResp.okBody ⟨[], StreamFin.aborted⟩) :
    (executeAgentLoop passes env stops).outcome = Outcome.cancelled
    ∧ (executeAgentLoop passes env stops).allDeltas = []
    ∧ ∀ m ∈ (executeAgentLoop passes env stops).msgs, m.content = "" := by
  have hchat : chat (passes 0) = ⟨ChatRes.err abortError, [], []⟩ := by
    rw [h]
    rfl
  unfold executeAgentLoop MAX_LOOPS
  rw [show (5 : Nat) = 4 + 1 from rfl]
  by_cases hs : stops 0
  · simp [agentLoopAux, hs]
  · simp only [agentLoopAux, hs, if_false, Bool.false_eq_true, hchat]
    rw [if_pos (show abortError.name = "AbortError" from rfl)]
    refine ⟨rfl, rfl, ?_⟩
    intro m hm
    rw [List.mem_singleton] at hm
    rw [hm]
    rfl

/-- Witness for C6 at a concrete aborted transport. -/
theorem abort_before_records_cancelled_witness :
    (executeAgentLoop passesAbort envW stopsNever).outcome = Outcome.cancelled
    ∧ (executeAgentLoop passesAbort envW stopsNever).allDeltas = []
    ∧ ∀ m ∈ (executeAgentLoop passesAbort envW stopsNever).msgs, m.content = "" :=
  abort_before_records_cancelled passesAbort envW stopsNever rfl

/-- Counterexample to C7 as stated: HTTP 500 whose body carries the error
field `""` — the body does contain a server-supplied error field, yet the
thrown message is the status-coded fallback, not that field (JavaScript `||`
treats the empty string as absent). -/
theorem http_error_empty_field_counterexample :
    (chat (HttpResp.notOk 500 (some ""))).result
      = ChatRes.err ⟨"Error", "Error 500"⟩
    ∧ (chat (HttpResp.notOk 500 (some ""))).result
      ≠ ChatRes.err ⟨"Error", ""⟩ := by
  refine ⟨rfl, ?_⟩
  intro hEq
  have hmsg : ("Error 500" : String) = "" := by
    have h2 : ChatRes.err ⟨"Error", "Error 500"⟩ = ChatRes.err ⟨"Error", ""⟩ := hEq
    injection h2 with h3
    injection h3
  exact absurd hmsg (by decide)

/-- Claim C7 (amended): for a non-success HTTP status the thrown message is the
server-supplied error field when the body carries a non-empty one, and
otherwise a message carrying the numeric status code; in the concrete 500
scenario the run fails and the assistant placeholder's content becomes
`Error: model not found`. -/
theorem http_error_message (status : Nat) :
    (∀ e : String, e ≠ "" →
        (chat (HttpResp.notOk status (some e))).result = ChatRes.err ⟨"Error", e⟩)
    ∧ (chat (HttpResp.notOk status none)).result
        = ChatRes.err ⟨"Error", "Error " ++ toString status⟩
    ∧ (∀ passes : Nat → HttpResp, ∀ env : ToolEnv, ∀ stops : Nat → Bool,
        stops 0 = false → passes 0 = HttpResp.notOk 500 (some "model not found") →
        (executeAgentLoop passes env stops).outcome = Outcome.failed
        ∧ (executeAgentLoop passes env stops).msgs
            = [⟨"assistant", "Error: model not found", none, none, none⟩]) := by
  refine ⟨?_, ?_, ?_⟩
  · intro e he
    simp [chat, httpErrMsg, he]
  · rfl
  · intro passes env stops hs h
    have hchat : chat (passes 0)
        = ⟨ChatRes.err ⟨"Error", "model not found"⟩, [], []⟩ := by
      rw [h]
      rfl
    unfold executeAgentLoop MAX_LOOPS
    rw [show (5 : Nat) = 4 + 1 from rfl]
    simp only [agentLoopAux, hs, if_false, Bool.false_eq_true, hchat]
    rw [if_neg (show ¬ (JsError.name ⟨"Error", "model not found"⟩ = "AbortError") from by
      decide)]
    exact ⟨rfl, rfl⟩

/-- Witness for C7 (amended) at the concrete 500 scenario. -/
theorem http_error_message_witness :
    (chat (HttpResp.notOk 500 (some "model not found"))).result
      = ChatRes.err ⟨"Error", "model not found"⟩
    ∧ (chat (HttpResp.notOk 404 none)).result = ChatRes.err ⟨"Error", "Error 404"⟩
    ∧ (executeAgentLoop passes500 envW stopsNever).outcome = Outcome.failed
    ∧ (executeAgentLoop passes500 envW stopsNever).msgs
        = [⟨"assistant", "Error: model not found", none, none, none⟩] := by
  refine ⟨(http_error_message 500).1 "model not found" (by decide),
    (http_error_message 404).2.1, ?_, ?_⟩
  · exact ((http_error_message 500).2.2 passes500 envW stopsNever rfl rfl).1
  · exact ((http_error_message 500).2.2 passes500 envW stopsNever rfl rfl).2

/-- Claim C4 fails on the code (code bug): the decoder splits each network
chunk on newlines independently, with no carry-over buffer, so a record whose
line is split across two chunks is lost — both fragments fail `JSON.parse` and
are skipped — while the same bytes in one chunk decode to content `Hello`.
The spec's transport reader promises reassembly. -/
theorem chunk_split_loses_record :
    String.join [splitChunkA, splitChunkB] = String.join [splitChunkA ++ splitChunkB]
    ∧ (chatFromBody ⟨[splitChunkA ++ splitChunkB], StreamFin.eof⟩).result
        = ChatRes.ok ⟨"Hello", none⟩
    ∧ (chatFromBody ⟨[splitChunkA, splitChunkB], StreamFin.eof⟩).result
        = ChatRes.ok ⟨"", none⟩
    ∧ chatFromBody ⟨[splitChunkA, splitChunkB], StreamFin.eof⟩
        ≠ chatFromBody ⟨[splitChunkA ++ splitChunkB], StreamFin.eof⟩ := by
  refine ⟨rfl, rfl, rfl, ?_⟩
  intro hEq
  have hres : (chatFromBody ⟨[splitChunkA, splitChunkB], StreamFin.eof⟩).result
      = (chatFromBody ⟨[splitChunkA ++ splitChunkB], StreamFin.eof⟩).result := by
    rw [hEq]
  have hok : ChatRes.ok ⟨"", none⟩ = ChatRes.ok (⟨"Hello", none⟩ : ChatOk) := hres
  injection hok with hok2
  injection hok2 with hc
  exact absurd hc (by decide)

/-- Claim C5: argument normalization proceeds strictly in this order — (1) a
strict JSON parse (of the cleaned string), (2) on failure the bare-key-quoting
repair followed by a re-parse (of the original string), (3) on failure of both
the empty object — and the named tool is invoked with the resulting arguments
in every case, never skipped.  In particular the unquoted-key input repairs to
the quoted object, and garbage falls back to the empty object. -/
theorem safeJsonParse_stage_order :
    (∀ s v, parseJson (cleanOf s) = some v → safeJsonParse (some (Json.str s)) = v)
    ∧ (∀ s v, parseJson (cleanOf s) = none → parseJson (quoteKeys s) = some v →
        safeJsonParse (some (Json.str s)) = v)
    ∧ (∀ s, parseJson (cleanOf s) = none → parseJson (quoteKeys s) = none →
        safeJsonParse (some (Json.str s)) = Json.obj [])
    ∧ quoteKeys exQuery = "\x7b\"query\": \"weather\"\x7d"
    ∧ safeJsonParse (some (Json.str exQuery)) = Json.obj [("query", Json.str "weather")]
    ∧ safeJsonParse (some (Json.str exGarbage)) = Json.obj []
    ∧ (∀ env : ToolEnv, ∀ tc fv : Json, getF tc ("function") = some fv →
        getF fv ("name") = some (Json.str "search_web") →
        (runTool env tc).2 = [("search_web", safeJsonParse (getF fv ("arguments")))]) := by
  refine ⟨?_, ?_, ?_, rfl, rfl, rfl, ?_⟩
  · intro s v h
    simp [safeJsonParse, h]
  · intro s v h1 h2
    simp [safeJsonParse, h1, h2]
  · intro s h1 h2
    simp [safeJsonParse, h1, h2]
  · intro env tc fv h1 h2
    cases fv with
    | obj fs =>
      unfold runTool
      rw [h1]
      simp only
      rw [h2]
      simp only
      simp only [ite_true]
      cases hw : env.webSearch (searchQueryOf (safeJsonParse (getF (Json.obj fs) ("arguments"))))
        <;> simp [hw]
    | null => simp [getF] at h2
    | bool b => simp [getF] at h2
    | num n => simp [getF] at h2
    | str s => simp [getF] at h2
    | arr xs => simp [getF] at h2

/-- Witness for C5: the three stages at concrete inputs, and the invocation of
the named tool with the repaired and with the fallen-back arguments. -/
theorem safeJsonParse_stage_order_witness :
    safeJsonParse (some (Json.str exQuery)) = Json.obj [("query", Json.str "weather")]
    ∧ safeJsonParse (some (Json.str exGarbage)) = Json.obj []
    ∧ (runTool envW tcQueryW).2
        = [("search_web", Json.obj [("query", Json.str "weather")])] := by
  refine ⟨safeJsonParse_stage_order.2.2.2.2.1, safeJsonParse_stage_order.2.2.2.2.2.1, ?_⟩
  have h := safeJsonParse_stage_order.2.2.2.2.2.2 envW tcQueryW
    (Json.obj [("name", Json.str "search_web"), ("arguments", Json.str exQuery)]) rfl rfl
  rw [h]
  rfl

/-- Claim C10: `safeJsonParse` strips the markdown fence markers and trims
before the strict parse, so fenced valid JSON succeeds at the strict stage;
and an input that is already a non-null object (arrays included) is returned
unchanged without any parsing. -/
theorem safeJsonParse_fences_and_objects :
    (∀ fs, safeJsonParse (some (Json.obj fs)) = Json.obj fs)
    ∧ (∀ xs, safeJsonParse (some (Json.arr xs)) = Json.arr xs)
    ∧ (∀ s, cleanOf s = jsTrim (replaceSub (replaceSub s fenceJson "") fence ""))
    ∧ (∀ s v, parseJson (cleanOf s) = some v → safeJsonParse (some (Json.str s)) = v)
    ∧ cleanOf exFenced = "\x7b\"query\": \"weather\"\x7d"
    ∧ parseJson (cleanOf exFenced) = some (Json.obj [("query", Json.str "weather")])
    ∧ safeJsonParse (some (Json.str exFenced)) = Json.obj [("query", Json.str "weather")] := by
  refine ⟨fun fs => rfl, fun xs => rfl, fun s => rfl, ?_, rfl, rfl, rfl⟩
  intro s v h
  simp [safeJsonParse, h]

/-- Witness for C10: the fenced example parses at the strict stage, and a
concrete object input passes through unchanged. -/
theorem safeJsonParse_fences_and_objects_witness :
    safeJsonParse (some (Json.obj [("a", Json.num 1)])) = Json.obj [("a", Json.num 1)]
    ∧ safeJsonParse (some (Json.str exFenced)) = Json.obj [("query", Json.str "weather")] :=
  ⟨safeJsonParse_fences_and_objects.1 [("a", Json.num 1)],
    safeJsonParse_fences_and_objects.2.2.2.1 exFenced
      (Json.obj [("query", Json.str "weather")]) rfl⟩

end GuyOllama
